import Mathlib

/-!
Verification development for `apiserver.py`, a Redis-backed FastAPI server
that fans out pubsub messages and web-control commands to SSE client queues.

The Python source is shallowly embedded below: the module-level mutable list
`sse_clients` together with the per-queue contents becomes an explicit
`SysState`; each route handler and the redis listener become pure functions
on that state; the standard-library calls `json.loads` / `json.dumps` are
modelled executably on the JSON fragment this service exchanges.
-/

namespace ApiServer

/-- JSON values, as produced by the Python `json` module on the fragment this
service exchanges (objects, arrays, strings, booleans, null, integers). -/
inductive Json where
  | null
  | bool (b : Bool)
  | num (n : Int)
  | str (s : String)
  | arr (items : List Json)
  | obj (fields : List (String × Json))

/-- The character `\x7b` (opening curly bracket). -/
def lCurly : Char := Char.ofNat 123

/-- The character `\x7d` (closing curly bracket). -/
def rCurly : Char := Char.ofNat 125

/-- The double-quote character. -/
def dQuote : Char := Char.ofNat 34

/-- The backslash character. -/
def bSlash : Char := Char.ofNat 92

/-- JSON whitespace. -/
def isWsChar (c : Char) : Bool :=
  c = ' ' || c = Char.ofNat 9 || c = Char.ofNat 10 || c = Char.ofNat 13

/-- Drop leading JSON whitespace. -/
def skipWs : List Char → List Char
  | [] => []
  | c :: cs => if isWsChar c then skipWs cs else c :: cs

/-- Read the remainder of a JSON string literal (the opening quote already
consumed), handling the simple escape sequences. Returns the decoded string
and the rest of the input. -/
def readStr : Nat → List Char → Option (String × List Char)
  | 0, _ => none
  | _, [] => none
  | fuel + 1, c :: cs =>
    if c = dQuote then some ("", cs)
    else if c = bSlash then
      match cs with
      | [] => none
      | e :: cs2 =>
        let dec : Option Char :=
          if e = dQuote then some dQuote
          else if e = bSlash then some bSlash
          else if e = '/' then some '/'
          else if e = 'n' then some (Char.ofNat 10)
          else if e = 't' then some (Char.ofNat 9)
          else if e = 'r' then some (Char.ofNat 13)
          else if e = 'b' then some (Char.ofNat 8)
          else if e = 'f' then some (Char.ofNat 12)
          else none
        match dec with
        | none => none
        | some d => (readStr fuel cs2).map (fun r => (String.singleton d ++ r.1, r.2))
    else (readStr fuel cs).map (fun r => (String.singleton c ++ r.1, r.2))

/-- Accumulate a run of decimal digits into a natural number. -/
def readDigits : List Char → Nat → Nat × List Char
  | [], acc => (acc, [])
  | c :: cs, acc =>
    if c.isDigit then readDigits cs (acc * 10 + (c.toNat - 48)) else (acc, c :: cs)

/-- Parse a nonempty digit run. -/
def readNat (cs : List Char) : Option (Nat × List Char) :=
  match cs with
  | [] => none
  | c :: _ => if c.isDigit then some (readDigits cs 0) else none

/-- Expect a fixed character sequence. -/
def expectChars : List Char → List Char → Option (List Char)
  | [], cs => some cs
  | _ :: _, [] => none
  | e :: es, c :: cs => if c = e then expectChars es cs else none

mutual

/-- Recursive-descent JSON value reader (fuel-indexed; the fuel is an upper
bound on the input length, so a well-formed input never exhausts it). -/
def readVal : Nat → List Char → Option (Json × List Char)
  | 0, _ => none
  | fuel + 1, cs =>
    match skipWs cs with
    | [] => none
    | c :: rest =>
      if c = dQuote then (readStr (fuel + 1) rest).map (fun r => (Json.str r.1, r.2))
      else if c = lCurly then
        match skipWs rest with
        | [] => none
        | d :: rest2 =>
          if d = rCurly then some (Json.obj [], rest2)
          else (readMembers fuel (d :: rest2)).map (fun r => (Json.obj r.1, r.2))
      else if c = '[' then
        match skipWs rest with
        | [] => none
        | d :: rest2 =>
          if d = ']' then some (Json.arr [], rest2)
          else (readItems fuel (d :: rest2)).map (fun r => (Json.arr r.1, r.2))
      else if c = 't' then (expectChars ['r', 'u', 'e'] rest).map (fun r => (Json.bool true, r))
      else if c = 'f' then (expectChars ['a', 'l', 's', 'e'] rest).map (fun r => (Json.bool false, r))
      else if c = 'n' then (expectChars ['u', 'l', 'l'] rest).map (fun r => (Json.null, r))
      else if c = '-' then (readNat rest).map (fun r => (Json.num (-(r.1 : Int)), r.2))
      else if c.isDigit then (readNat (c :: rest)).map (fun r => (Json.num (r.1 : Int), r.2))
      else none

/-- Reader for the members of a nonempty JSON object (after the opening
bracket), up to and including the closing bracket. -/
def readMembers : Nat → List Char → Option (List (String × Json) × List Char)
  | 0, _ => none
  | fuel + 1, cs =>
    match skipWs cs with
    | [] => none
    | c :: rest =>
      if c = dQuote then
        match readStr (fuel + 1) rest with
        | none => none
        | some (k, rest2) =>
          match skipWs rest2 with
          | ':' :: rest3 =>
            match readVal fuel rest3 with
            | none => none
            | some (v, rest4) =>
              match skipWs rest4 with
              | [] => none
              | c2 :: rest5 =>
                if c2 = ',' then (readMembers fuel rest5).map (fun r => ((k, v) :: r.1, r.2))
                else if c2 = rCurly then some ([(k, v)], rest5)
                else none
          | _ => none
      else none

/-- Reader for the items of a nonempty JSON array (after the opening
bracket), up to and including the closing bracket. -/
def readItems : Nat → List Char → Option (List Json × List Char)
  | 0, _ => none
  | fuel + 1, cs =>
    match readVal fuel cs with
    | none => none
    | some (v, rest) =>
      match skipWs rest with
      | ',' :: rest2 => (readItems fuel rest2).map (fun r => (v :: r.1, r.2))
      | ']' :: rest2 => some ([v], rest2)
      | _ => none

end

/-- Model of Python `json.loads` on the JSON fragment exchanged by this
service: returns `none` where `json.loads` raises (invalid document or
trailing garbage). -/
def jsonLoads (s : String) : Option Json :=
  match readVal (s.data.length + 1) s.data with
  | some (j, rest) => if skipWs rest = [] then some j else none
  | none => none

/-- Escape a character of a JSON string for output, as `json.dumps` does on
the strings this service emits. -/
def jsonEscapeChar (c : Char) : String :=
  if c = dQuote then String.singleton bSlash ++ String.singleton dQuote
  else if c = bSlash then String.singleton bSlash ++ String.singleton bSlash
  else String.singleton c

/-- Render a JSON string literal with its surrounding quotes. -/
def jsonQuoteStr (s : String) : String :=
  String.singleton dQuote ++ String.join (s.data.map jsonEscapeChar) ++ String.singleton dQuote

/-- Model of Python `json.dumps` on the flat string-valued dictionaries this
service broadcasts (its default separators insert a space after the comma and
the colon). -/
def jsonDumps (fields : List (String × String)) : String :=
  String.singleton lCurly ++
    String.intercalate ", " (fields.map (fun p => jsonQuoteStr p.1 ++ ": " ++ jsonQuoteStr p.2)) ++
    String.singleton rCurly

/-- Python `val or default` on an optional string: `None` and the empty
string are falsy and select the default. -/
def pyOrStr (v : Option String) (d : String) : String :=
  match v with
  | none => d
  | some s => if s = "" then d else s

/-- The text of the empty JSON object, the fallback document of the `/key`
handlers (`json.loads(val or this)`). -/
def emptyObjText : String := "\x7b\x7d"

/-- State of the fan-out core: `clients` embeds the module-level list
`sse_clients` (queues named by numeric ids, appended on registration);
`queues` gives the messages delivered so far to each queue id, in delivery
order; `nextId` supplies fresh queue ids (ids are never reused, mirroring the
freshness of `asyncio.Queue()` objects). -/
structure SysState where
  clients : List Nat
  queues : Nat → List String
  nextId : Nat

/-- The process starts with no SSE clients and no delivered messages. -/
def initState : SysState := { clients := [], queues := fun _ => [], nextId := 0 }

/-- Messages delivered so far to queue `q`, oldest first. -/
def getQueue (st : SysState) (q : Nat) : List String :=
  st.queues q

/-- `q.put(m)` on queue `c`: append `m` to that queue's delivered messages. -/
def putMsgF (f : Nat → List String) (c : Nat) (m : String) : Nat → List String :=
  fun i => if i = c then f i ++ [m] else f i

/-- `for q in list(sse_clients): await q.put(m)` — push `m` onto every queue
of a snapshot of the registry. -/
def deliverAll (st : SysState) (m : String) : SysState :=
  { st with queues := st.clients.foldl (fun f c => putMsgF f c m) st.queues }

/-- `queue = asyncio.Queue(); sse_clients.append(queue)` — create a fresh
queue and append it to the registry. -/
def registerClient (st : SysState) : SysState :=
  { clients := st.clients ++ [st.nextId], queues := st.queues, nextId := st.nextId + 1 }

/-- Python `list.remove(x)`: delete the first occurrence of `x`, or raise
`ValueError` (modelled as `none`) when `x` is not present. -/
def pyListRemove (l : List Nat) (x : Nat) : Option (List Nat) :=
  match l with
  | [] => none
  | y :: ys => if y = x then some ys else (pyListRemove ys x).map (fun t => y :: t)

/-- `sse_clients.remove(queue)` — the registry removal used by the
`finally` block of `event_generator`. Yields `none` when the removal raises
(queue not present). -/
def deregisterClient (st : SysState) (q : Nat) : Option SysState :=
  (pyListRemove st.clients q).map (fun c => { st with clients := c })

/-- `broadcast(payload)` of `apiserver.py`: serialize the payload once with
`json.dumps`, then put the serialized form onto every registered queue. -/
def broadcast (payload : List (String × String)) (st : SysState) : SysState :=
  deliverAll st (jsonDumps payload)

/-- Response of a JSON route: HTTP status code and flat JSON object body. -/
structure WebResponse where
  status : Nat
  body : List (String × String)
deriving Repr, DecidableEq

/-- The fixed command vocabulary of `send_webcontrol_command`. -/
def validCommands : List String := ["pp", "fwd", "rew", "out"]

/-- The payload built by `send_webcontrol_command` for an accepted command. -/
def webcontrolPayload (command : String) : List (String × String) :=
  [("type", "webcontrol"), ("command", command)]

/-- `PUT /webcontrol/{command}`: reject unknown commands with 400 and no
side effect; otherwise build the payload, broadcast it, and answer 202. -/
def sendWebcontrolCommand (command : String) (st : SysState) : WebResponse × SysState :=
  if command ∉ validCommands then
    (⟨400, [("error", "Invalid command")]⟩, st)
  else
    (⟨202, [("status", "Command queued")]⟩, broadcast (webcontrolPayload command) st)

/-- One item of the pubsub stream consumed by `redis_listener`: an entry
with a `type` field and a `data` field, or an opaque transport failure
raised out of `pubsub.listen()`. -/
inductive StreamItem where
  | entry (ty data : String)
  | failure
deriving Repr, DecidableEq

/-- The `async for message in pubsub.listen()` loop of `redis_listener`:
entries whose type is "message" have their raw data pushed onto every
registered queue; a transport failure propagates (second component `true`),
ending the loop; stream exhaustion models cancellation while suspended. -/
def redisListenLoop : List StreamItem → SysState → SysState × Bool
  | [], st => (st, false)
  | StreamItem.failure :: _, st => (st, true)
  | StreamItem.entry ty d :: rest, st =>
    if ty = "message" then redisListenLoop rest (deliverAll st d)
    else redisListenLoop rest st

/-- `redis_listener()`: subscribes exactly once (the middle component counts
`pubsub.subscribe` calls — the source performs one, before the loop, and
contains no retry), then runs the listen loop; the last component records
whether a transport failure propagated out of the function. -/
def redisListener (stream : List StreamItem) (st : SysState) : SysState × Nat × Bool :=
  let r := redisListenLoop stream st
  (r.1, 1, r.2)

/-- How a run of `event_generator` ended: the disconnect probe returned true
(normal `break`), or the loop was ended externally (an exception or the
task's cancellation while iterating or while suspended on `queue.get()`). -/
inductive SessionExit where
  | disconnectDetected
  | interrupted
deriving Repr, DecidableEq

/-- The `while True` loop of `event_generator`: each iteration consumes one
disconnect-probe result; when the probe is false it awaits the next queued
message and yields it as an "update" event. `probes` running out, or the
queue script running out during `queue.get()`, models an exception or
cancellation ending the loop. -/
def eventGenRun : List Bool → List String → List (String × String) × SessionExit
  | [], _ => ([], SessionExit.interrupted)
  | true :: _, _ => ([], SessionExit.disconnectDetected)
  | false :: _, [] => ([], SessionExit.interrupted)
  | false :: ps, m :: ms =>
    let r := eventGenRun ps ms
    (("update", m) :: r.1, r.2)

/-- `GET /events` (`stream_events`): create and register a fresh queue, run
the generator loop, and — in the generator's `finally`, hence on every exit
path — remove the queue from the registry. Returns the yielded events with
the exit cause, and the registry state after the `finally` ran. -/
def streamEvents (st : SysState) (probes : List Bool) (msgs : List String) :
    (List (String × String) × SessionExit) × Option SysState :=
  let qid := st.nextId
  let st1 := registerClient st
  (eventGenRun probes msgs, deregisterClient st1 qid)

/-- `GET /key/{KV_KEY}` (`get_current_state`): fetch the raw value from the
store and return `json.loads(val or "\x7b\x7d")`; `none` models the handler
raising (invalid stored JSON). -/
def getCurrentState (KV_KEY : String) (store : String → Option String) : Option Json :=
  jsonLoads (pyOrStr (store KV_KEY) emptyObjText)

/-- `GET /key/Environment` (`get_current_environment`): fetch the three
backing keys and build the response object with `json.loads(val or
"\x7b\x7d")` applied to each independently; `none` models the handler
raising on any invalid stored JSON. -/
def getCurrentEnvironment (store : String → Option String) : Option Json :=
  match jsonLoads (pyOrStr (store "AQI") emptyObjText),
      jsonLoads (pyOrStr (store "Moon") emptyObjText),
      jsonLoads (pyOrStr (store "Weather") emptyObjText) with
  | some a, some m, some w => some (Json.obj [("AQI", a), ("Moon", m), ("Weather", w)])
  | _, _, _ => none

/-- First binding of a key in a JSON object's field list. -/
def jfind : List (String × Json) → String → Option Json
  | [], _ => none
  | p :: rest, k => if p.1 = k then some p.2 else jfind rest k

/-- Field lookup on a JSON object value. -/
def jsonField (j : Json) (k : String) : Option Json :=
  match j with
  | Json.obj fs => jfind fs k
  | _ => none

/-- One event of the fan-out core, for whole-trace statements: a client
registration, one upstream pubsub entry of type "message" processed by
`redis_listener`, or one `PUT /webcontrol/{c}` request. -/
inductive Event where
  | register
  | upstream (d : String)
  | command (c : String)
deriving Repr, DecidableEq

/-- The state transition of a single event, routed through the embedded
source functions. -/
def stepEvent (st : SysState) (e : Event) : SysState :=
  match e with
  | Event.register => registerClient st
  | Event.upstream d => (redisListenLoop [StreamItem.entry "message" d] st).1
  | Event.command c => (sendWebcontrolCommand c st).2

/-- Run a sequence of events from a state. -/
def runTrace (es : List Event) (st : SysState) : SysState :=
  es.foldl stepEvent st

/-- Register `n` fresh clients in sequence. -/
def registerN : Nat → SysState → SysState
  | 0, st => st
  | n + 1, st => registerClient (registerN n st)

/-- A state with exactly one registered client, queue id 0, still empty. -/
def oneClient : SysState := registerClient initState

/-- Folding `putMsgF` over a duplicate-free snapshot delivers the message to
exactly the queues in the snapshot, once each. -/
theorem foldl_putMsgF_nodup (cls : List Nat) :
    ∀ (f : Nat → List String) (m : String) (q : Nat), cls.Nodup →
      (cls.foldl (fun g c => putMsgF g c m) f) q =
        if q ∈ cls then f q ++ [m] else f q := by
  induction cls with
  | nil => intro f m q _; simp
  | cons c cls ih =>
    intro f m q h
    rcases List.nodup_cons.mp h with ⟨hc, hnd⟩
    rw [List.foldl_cons, ih (putMsgF f c m) m q hnd]
    by_cases hq : q ∈ cls
    · have hqc : q ≠ c := fun e => hc (e ▸ hq)
      simp [putMsgF, hq, hqc]
    · by_cases hqc : q = c
      · subst hqc; simp [putMsgF, hq]
      · simp [putMsgF, hq, hqc]

/-- Folding `putMsgF` over any snapshot only ever appends to a queue. -/
theorem foldl_putMsgF_append (cls : List Nat) :
    ∀ (f : Nat → List String) (m : String) (q : Nat),
      ∃ t, (cls.foldl (fun g c => putMsgF g c m) f) q = f q ++ t := by
  induction cls with
  | nil => intro f m q; exact ⟨[], by simp⟩
  | cons c cls ih =>
    intro f m q
    rw [List.foldl_cons]
    obtain ⟨t, ht⟩ := ih (putMsgF f c m) m q
    by_cases hqc : q = c
    · subst hqc
      refine ⟨[m] ++ t, ?_⟩
      rw [ht]; simp [putMsgF]
    · refine ⟨t, ?_⟩
      rw [ht]; simp [putMsgF, hqc]

/-- `deliverAll` pushes the message onto exactly the registered queues. -/
theorem deliverAll_getQueue (st : SysState) (m : String) (q : Nat)
    (h : st.clients.Nodup) :
    getQueue (deliverAll st m) q =
      if q ∈ st.clients then getQueue st q ++ [m] else getQueue st q :=
  foldl_putMsgF_nodup st.clients st.queues m q h

/-- Python `list.remove` deletes the first occurrence when present, and
raises (`none`) exactly when the element is absent. -/
theorem pyListRemove_eq_erase (l : List Nat) (x : Nat) :
    pyListRemove l x = if x ∈ l then some (l.erase x) else none := by
  induction l with
  | nil => simp [pyListRemove]
  | cons y ys ih =>
    by_cases hyx : y = x
    · subst hyx; simp [pyListRemove, List.erase_cons]
    · have hne : ¬((y == x) = true) := by simp [hyx]
      by_cases hx : x ∈ ys
      · simp [pyListRemove, hyx, ih, hx, List.erase_cons, hne, List.mem_cons,
          Ne.symm hyx]
      · simp [pyListRemove, hyx, ih, hx, List.mem_cons, Ne.symm hyx]

/-- Removing a freshly appended element recovers the original registry. -/
theorem pyListRemove_append_self (l : List Nat) (x : Nat) (h : x ∉ l) :
    pyListRemove (l ++ [x]) x = some l := by
  induction l with
  | nil => simp [pyListRemove]
  | cons y ys ih =>
    have hyx : y ≠ x := fun e => h (e ▸ List.mem_cons_self y ys)
    have hys : x ∉ ys := fun hm => h (List.mem_cons_of_mem y hm)
    simp [pyListRemove, hyx, ih hys]

/-- After `n` registrations from the initial state the registry holds the
queue ids `0, …, n-1` in order, the next fresh id is `n`, and no queue has
received anything. -/
theorem registerN_init_spec (n : Nat) :
    (registerN n initState).clients = List.range n ∧
      (registerN n initState).nextId = n ∧
      ∀ q, getQueue (registerN n initState) q = [] := by
  induction n with
  | zero => exact ⟨rfl, rfl, fun _ => rfl⟩
  | succ n ih =>
    obtain ⟨h1, h2, h3⟩ := ih
    refine ⟨?_, ?_, fun q => h3 q⟩
    · show (registerClient (registerN n initState)).clients = List.range (n + 1)
      simp [registerClient, h1, h2, List.range_succ]
    · show (registerClient (registerN n initState)).nextId = n + 1
      simp [registerClient, h2]

/-- The listen loop stops at the first transport failure: the prefix before
it is processed, the failure flag is raised, nothing after it runs. -/
theorem listenLoop_stops_at_failure (pre : List StreamItem) :
    ∀ (post : List StreamItem) (st : SysState), StreamItem.failure ∉ pre →
      redisListenLoop (pre ++ StreamItem.failure :: post) st =
        ((redisListenLoop pre st).1, true) := by
  induction pre with
  | nil => intro post st _; rfl
  | cons it pre ih =>
    intro post st h
    have hit : it ≠ StreamItem.failure := fun e => h (e ▸ List.mem_cons_self it pre)
    have hpre : StreamItem.failure ∉ pre := fun hm => h (List.mem_cons_of_mem it hm)
    cases it with
    | failure => exact absurd rfl hit
    | entry ty d =>
      by_cases hty : ty = "message"
      · simp only [List.cons_append, redisListenLoop, hty, if_pos rfl]
        exact ih post (deliverAll st d) hpre
      · simp only [List.cons_append, redisListenLoop, if_neg hty]
        exact ih post st hpre

/-- `json.loads` of the empty-object text is the empty JSON object. -/
theorem jsonLoads_emptyObjText : jsonLoads emptyObjText = some (Json.obj []) := rfl

/-- C1 counterexample: with one registered client, `PUT /webcontrol/pp`
delivers the serialization of `\x7btype: "webcontrol", command: "pp"\x7d` to
the queue — not, as claimed, that of `\x7btype: "control", command:
"pp"\x7d`. -/
theorem webcontrol_not_control_cex :
    getQueue (sendWebcontrolCommand "pp" oneClient).2 0 =
        [jsonDumps [("type", "webcontrol"), ("command", "pp")]] ∧
      getQueue (sendWebcontrolCommand "pp" oneClient).2 0 ≠
        [jsonDumps [("type", "control"), ("command", "pp")]] := by
  constructor
  · rfl
  · decide

/-- C1 (amended): for every command of the vocabulary, `send_webcontrol_command`
builds the payload `\x7btype: "webcontrol", command: commandToken\x7d`,
broadcasts it, and answers 202 "Command queued"; every queue registered at
that moment receives exactly that payload's serialization, appended once. -/
theorem webcontrol_submit_accepted (cmd : String) (st : SysState)
    (h1 : cmd ∈ validCommands) (h2 : st.clients.Nodup) :
    (sendWebcontrolCommand cmd st).1 = ⟨202, [("status", "Command queued")]⟩ ∧
      ∀ q ∈ st.clients,
        getQueue (sendWebcontrolCommand cmd st).2 q =
          getQueue st q ++ [jsonDumps [("type", "webcontrol"), ("command", cmd)]] := by
  have hnot : ¬cmd ∉ validCommands := fun hn => hn h1
  constructor
  · simp [sendWebcontrolCommand, hnot]
  · intro q hq
    have hstep :
        (sendWebcontrolCommand cmd st).2 =
          deliverAll st (jsonDumps (webcontrolPayload cmd)) := by
      simp [sendWebcontrolCommand, hnot, broadcast]
    rw [hstep, deliverAll_getQueue st _ q h2, if_pos hq]
    rfl

/-- C1 witness: the amended statement at `cmd = "pp"` on the one-client
state. -/
theorem webcontrol_submit_accepted_wit :
    (sendWebcontrolCommand "pp" oneClient).1 = ⟨202, [("status", "Command queued")]⟩ ∧
      getQueue (sendWebcontrolCommand "pp" oneClient).2 0 =
        getQueue oneClient 0 ++ [jsonDumps [("type", "webcontrol"), ("command", "pp")]] := by
  have h := webcontrol_submit_accepted "pp" oneClient (by decide) (by decide)
  exact ⟨h.1, h.2 0 (by decide)⟩

/-- C2 counterexample: with one registered client, a transport failure makes
`redis_listener` terminate — the failure propagates (flag `true`), the
subscribe count stays at its single initial call (no resubscription
attempt), and relaying silently ends. -/
theorem listener_failure_terminates_cex :
    redisListener [StreamItem.failure] oneClient = (oneClient, 1, true) ∧
      getQueue (redisListener [StreamItem.failure] oneClient).1 0 = [] := by
  constructor
  · rfl
  · rfl

/-- C2 (amended): on a transport-level failure of the subscription stream,
`redis_listener` stops; the failure propagates out of the function, items
after the failure are never processed, and `pubsub.subscribe` is invoked
exactly once — the code contains no resubscription attempt (any reconnection
is left to the underlying redis client library, outside this code). -/
theorem listener_no_resubscription (pre post : List StreamItem) (st : SysState)
    (h : StreamItem.failure ∉ pre) :
    redisListener (pre ++ StreamItem.failure :: post) st =
      ((redisListenLoop pre st).1, 1, true) := by
  show ((redisListenLoop (pre ++ StreamItem.failure :: post) st).1, 1,
      (redisListenLoop (pre ++ StreamItem.failure :: post) st).2) = _
  rw [listenLoop_stops_at_failure pre post st h]

/-- C2 witness: the amended statement with an immediately failing stream on
the initial state. -/
theorem listener_no_resubscription_wit :
    redisListener ([] ++ StreamItem.failure :: []) initState =
      ((redisListenLoop [] initState).1, 1, true) :=
  listener_no_resubscription [] [] initState (by decide)

/-- C3 counterexample: removing a never-registered queue from the empty
registry is not a no-op — `sse_clients.remove` raises `ValueError`
(modelled as `none`), so deregistration of an absent handle errors instead
of leaving the registry unchanged. -/
theorem deregister_absent_raises_cex :
    deregisterClient initState 0 = none ∧
      deregisterClient initState 0 ≠ some initState := by
  constructor
  · rfl
  · intro h
    exact Option.noConfusion h

/-- C3 (amended): deregistration removes the first occurrence of a present
handle, but on an already-removed or never-present handle it raises
(`ValueError` from `list.remove`) rather than being an idempotent no-op. -/
theorem deregister_requires_presence (st : SysState) (q : Nat) :
    (q ∉ st.clients → deregisterClient st q = none) ∧
      (q ∈ st.clients →
        deregisterClient st q = some { st with clients := st.clients.erase q }) := by
  constructor
  · intro h
    simp [deregisterClient, pyListRemove_eq_erase, h]
  · intro h
    simp [deregisterClient, pyListRemove_eq_erase, h]

/-- C3 witness: both branches of the amended statement at concrete
registries. -/
theorem deregister_requires_presence_wit :
    deregisterClient oneClient 1 = none ∧
      deregisterClient oneClient 0 =
        some { oneClient with clients := oneClient.clients.erase 0 } :=
  ⟨(deregister_requires_presence oneClient 1).1 (by decide),
    (deregister_requires_presence oneClient 0).2 (by decide)⟩

/-- C4: a command outside the vocabulary is answered 400 "Invalid command"
with the state returned untouched (no broadcast, no queue receives anything,
registry unchanged), and the 202 acceptance happens exactly for membership
in the vocabulary, which is exactly the four tokens pp, fwd, rew, out. -/
theorem invalid_command_rejected (cmd : String) (st : SysState) :
    (cmd ∉ validCommands →
        sendWebcontrolCommand cmd st = (⟨400, [("error", "Invalid command")]⟩, st)) ∧
      ((sendWebcontrolCommand cmd st).1.status = 202 ↔ cmd ∈ validCommands) ∧
      (cmd ∈ validCommands ↔ (cmd = "pp" ∨ cmd = "fwd" ∨ cmd = "rew" ∨ cmd = "out")) := by
  refine ⟨?_, ?_, ?_⟩
  · intro h
    simp [sendWebcontrolCommand, h]
  · by_cases h : cmd ∈ validCommands
    · have hnot : ¬cmd ∉ validCommands := fun hn => hn h
      simp [sendWebcontrolCommand, hnot, h]
    · simp [sendWebcontrolCommand, h]
  · simp [validCommands]

/-- C4 witness: the unknown token "xyz" is rejected with 400 and no side
effect on the initial state. -/
theorem invalid_command_rejected_wit :
    sendWebcontrolCommand "xyz" initState = (⟨400, [("error", "Invalid command")]⟩, initState) :=
  (invalid_command_rejected "xyz" initState).1 (by decide)

/-- C5: after `N` registrations from the initial state, a broadcast is
serialized and delivered to exactly the `N` registered queues, each
receiving exactly the one serialized payload; a broadcast with no clients
registered changes nothing; and a client registered after the broadcast has
an empty queue (the payload is never replayed). -/
theorem broadcast_fanout_exact (N : Nat) (payload : List (String × String)) :
    (registerN N initState).clients.length = N ∧
      (∀ q ∈ (registerN N initState).clients,
        getQueue (broadcast payload (registerN N initState)) q = [jsonDumps payload]) ∧
      broadcast payload initState = initState ∧
      getQueue (registerClient (broadcast payload (registerN N initState)))
        (registerN N initState).nextId = [] := by
  obtain ⟨hc, hn, hq⟩ := registerN_init_spec N
  have hnd : (registerN N initState).clients.Nodup := by
    rw [hc]; exact List.nodup_range N
  refine ⟨?_, ?_, ?_, ?_⟩
  · rw [hc, List.length_range]
  · intro q hqm
    rw [show broadcast payload (registerN N initState) =
        deliverAll (registerN N initState) (jsonDumps payload) from rfl]
    rw [deliverAll_getQueue _ _ q hnd, if_pos hqm, hq q]
    rfl
  · rfl
  · show getQueue (deliverAll (registerN N initState) (jsonDumps payload))
        (registerN N initState).nextId = []
    rw [deliverAll_getQueue _ _ _ hnd, hc, hn]
    simp [List.mem_range, hq]

/-- C5 witness: one registered client, one broadcast, the queue holds
exactly the serialized payload. -/
theorem broadcast_fanout_exact_wit :
    getQueue (broadcast [("a", "b")] (registerN 1 initState)) 0 = [jsonDumps [("a", "b")]] :=
  (broadcast_fanout_exact 1 [("a", "b")]).2.1 0 (by decide)

/-- C6: `stream_events` registers the fresh queue before the generator loop
runs, and the generator's `finally` deregisters it on every exit path
(disconnect detection, exception, cancellation — every probe/message
script), leaving the registry exactly as before the session and without the
session's queue. -/
theorem session_deregisters_on_exit (st : SysState) (probes : List Bool)
    (msgs : List String) (h : st.nextId ∉ st.clients) :
    (registerClient st).clients = st.clients ++ [st.nextId] ∧
      ∃ st2, (streamEvents st probes msgs).2 = some st2 ∧
        st2.clients = st.clients ∧ st.nextId ∉ st2.clients := by
  refine ⟨rfl, { registerClient st with clients := st.clients }, ?_, rfl, h⟩
  show deregisterClient (registerClient st) st.nextId = _
  rw [deregisterClient, show (registerClient st).clients = st.clients ++ [st.nextId] from rfl,
    pyListRemove_append_self st.clients st.nextId h]
  rfl

/-- C6 witness: a session on the initial state whose transport reports
disconnected on the first probe ends with the registry empty again. -/
theorem session_deregisters_on_exit_wit :
    (registerClient initState).clients = initState.clients ++ [initState.nextId] ∧
      ∃ st2, (streamEvents initState [true] []).2 = some st2 ∧
        st2.clients = initState.clients ∧ initState.nextId ∉ st2.clients :=
  session_deregisters_on_exit initState [true] [] (by decide)

/-- C7: a pubsub entry of type "message" is forwarded by the listener loop
with its raw data string unmodified — no re-serialization — appended once to
every queue registered at the time of delivery. -/
theorem listener_forwards_verbatim (st : SysState) (d : String)
    (rest : List StreamItem) (h : st.clients.Nodup) :
    redisListenLoop (StreamItem.entry "message" d :: rest) st =
        redisListenLoop rest (deliverAll st d) ∧
      ∀ q ∈ st.clients, getQueue (deliverAll st d) q = getQueue st q ++ [d] := by
  constructor
  · simp [redisListenLoop]
  · intro q hq
    rw [deliverAll_getQueue st d q h, if_pos hq]

/-- C7 witness: the one-client state receives the raw upstream data
"hello" verbatim. -/
theorem listener_forwards_verbatim_wit :
    redisListenLoop [StreamItem.entry "message" "hello"] oneClient =
        redisListenLoop [] (deliverAll oneClient "hello") ∧
      getQueue (deliverAll oneClient "hello") 0 = getQueue oneClient 0 ++ ["hello"] := by
  have h := listener_forwards_verbatim oneClient "hello" [] (by decide)
  exact ⟨h.1, h.2 0 (by decide)⟩

/-- C8: every fan-out event only ever appends to a queue's delivery
sequence — so per-queue delivery is FIFO in production order — and the
interleaving upstream "A", command "pp", upstream "B" reaches the registered
queue exactly in the order A, then the pp payload, then B. -/
theorem fifo_per_queue_order :
    (∀ (st : SysState) (e : Event) (q : Nat),
        ∃ t, getQueue (stepEvent st e) q = getQueue st q ++ t) ∧
      getQueue (runTrace [Event.register, Event.upstream "A", Event.command "pp",
          Event.upstream "B"] initState) 0 =
        ["A", jsonDumps [("type", "webcontrol"), ("command", "pp")], "B"] := by
  constructor
  · intro st e q
    cases e with
    | register => exact ⟨[], by simp [stepEvent, registerClient, getQueue]⟩
    | upstream d =>
      obtain ⟨t, ht⟩ := foldl_putMsgF_append st.clients st.queues d q
      exact ⟨t, by simpa [stepEvent, redisListenLoop, deliverAll, getQueue] using ht⟩
    | command c =>
      by_cases hv : c ∈ validCommands
      · have hnot : ¬c ∉ validCommands := fun hn => hn hv
        obtain ⟨t, ht⟩ :=
          foldl_putMsgF_append st.clients st.queues (jsonDumps (webcontrolPayload c)) q
        refine ⟨t, ?_⟩
        simpa [stepEvent, sendWebcontrolCommand, hnot, broadcast, deliverAll, getQueue]
          using ht
      · exact ⟨[], by simp [stepEvent, sendWebcontrolCommand, hv]⟩
  · decide

/-- C9: the listener loop forwards only pubsub entries whose type field is
"message"; any other entry leaves the whole state untouched — no queue ever
receives it. -/
theorem non_message_entries_dropped (st : SysState) (ty d : String)
    (rest : List StreamItem) (h : ty ≠ "message") :
    redisListenLoop (StreamItem.entry ty d :: rest) st = redisListenLoop rest st := by
  simp [redisListenLoop, h]

/-- C9 witness: a subscribe confirmation entry is dropped on the one-client
state. -/
theorem non_message_entries_dropped_wit :
    redisListenLoop [StreamItem.entry "subscribe" "1"] oneClient =
      redisListenLoop [] oneClient :=
  non_message_entries_dropped oneClient "subscribe" "1" [] (by decide)

/-- C10: a key absent from the store makes `GET /key/{KV_KEY}` succeed with
the empty JSON object as body (never an error or null), and in `GET
/key/Environment` each of the AQI, Moon and Weather fields independently
falls back to the empty object when its backing key is absent. -/
theorem absent_key_empty_object (store : String → Option String) (key : String) :
    (store key = none → getCurrentState key store = some (Json.obj [])) ∧
      ∀ j, getCurrentEnvironment store = some j →
        (store "AQI" = none → jsonField j "AQI" = some (Json.obj [])) ∧
        (store "Moon" = none → jsonField j "Moon" = some (Json.obj [])) ∧
        (store "Weather" = none → jsonField j "Weather" = some (Json.obj [])) := by
  constructor
  · intro hk
    simp only [getCurrentState, hk]
    exact jsonLoads_emptyObjText
  · intro j hj
    cases hA : jsonLoads (pyOrStr (store "AQI") emptyObjText) with
    | none => simp [getCurrentEnvironment, hA] at hj
    | some a =>
      cases hM : jsonLoads (pyOrStr (store "Moon") emptyObjText) with
      | none => simp [getCurrentEnvironment, hA, hM] at hj
      | some m =>
        cases hW : jsonLoads (pyOrStr (store "Weather") emptyObjText) with
        | none => simp [getCurrentEnvironment, hA, hM, hW] at hj
        | some w =>
          have hj2 : Json.obj [("AQI", a), ("Moon", m), ("Weather", w)] = j := by
            simpa [getCurrentEnvironment, hA, hM, hW] using hj
          subst hj2
          refine ⟨?_, ?_, ?_⟩
          · intro h0
            rw [h0] at hA
            rw [show pyOrStr none emptyObjText = emptyObjText from rfl,
              jsonLoads_emptyObjText] at hA
            cases hA
            rfl
          · intro h0
            rw [h0] at hM
            rw [show pyOrStr none emptyObjText = emptyObjText from rfl,
              jsonLoads_emptyObjText] at hM
            cases hM
            rfl
          · intro h0
            rw [h0] at hW
            rw [show pyOrStr none emptyObjText = emptyObjText from rfl,
              jsonLoads_emptyObjText] at hW
            cases hW
            rfl

/-- C10 witness: on the store with every key absent, `GET /key/State` and
the Environment field fallbacks all produce the empty object. -/
theorem absent_key_empty_object_wit :
    getCurrentState "State" (fun _ => none) = some (Json.obj []) ∧
      jsonField (Json.obj [("AQI", Json.obj []), ("Moon", Json.obj []),
        ("Weather", Json.obj [])]) "Moon" = some (Json.obj []) := by
  have h := absent_key_empty_object (fun _ => none) "State"
  exact ⟨h.1 rfl, (h.2 (Json.obj [("AQI", Json.obj []), ("Moon", Json.obj []),
    ("Weather", Json.obj [])]) rfl).2.1 rfl⟩

end ApiServer
